import Mathlib

/-!
Verification of the DTLS flight transmission and retransmission engine
(lib/gnutls_dtls.c): the fragmenter transmit_message, the epoch release
helper drop_usage_count, and the retransmission driver _gnutls_dtls_transmit.

The C code is shallowly embedded: the session fields consulted by these
functions become a Session structure, and the record layer, the transport
flush and the bounded receive become a NetOracle of response functions
indexed by attempt number (and, for per-fragment sends, by message and
fragment index).  Both C loops are embedded as structurally recursive
functions with an explicit iteration bound (fuel); the bound is chosen so
that it is never exhausted whenever the C loop terminates (positive MTU,
positive retransmission interval), which the lemmas below establish.
-/

/-! Error and protocol constants, from gnutls_errors.h and gnutls/gnutls.h. -/

def GNUTLS_E_MEMORY_ERROR : Int := -25
def GNUTLS_E_INVALID_REQUEST : Int := -50
def GNUTLS_E_PUSH_ERROR : Int := -53
def GNUTLS_E_INTERNAL_ERROR : Int := -59
def GNUTLS_E_TIMEDOUT : Int := -319

/-- Record content type for change cipher spec records. -/
def GNUTLS_CHANGE_CIPHER_SPEC : Nat := 20

/-- Record content type for handshake records. -/
def GNUTLS_HANDSHAKE : Nat := 22

/-- Handshake message type of the Finished message. -/
def GNUTLS_HANDSHAKE_FINISHED : Nat := 20

/-- Pseudo handshake type tagging a buffered change cipher spec message. -/
def GNUTLS_HANDSHAKE_CHANGE_CIPHER_SPEC : Nat := 254

/-- Size of the DTLS handshake fragment header. -/
def DTLS_HANDSHAKE_HEADER_SIZE : Nat := 12

/-- A buffered outgoing handshake message (mbuffer_st with the fields the
engine reads: handshake type, sequence number, epoch, and the user header
and user data regions). -/
structure Mbuffer where
  htype : Nat
  sequence : Nat
  epoch : Nat
  uhead : List Nat
  udata : List Nat
deriving DecidableEq

def _mbuffer_get_uhead_ptr (b : Mbuffer) : List Nat := b.uhead

def _mbuffer_get_udata_ptr (b : Mbuffer) : List Nat := b.udata

def _mbuffer_get_udata_size (b : Mbuffer) : Nat := b.udata.length

/-- gnutls_connection_end_t: which side of the connection this session is. -/
inductive ConnectionEnd where
  | GNUTLS_SERVER
  | GNUTLS_CLIENT
deriving DecidableEq

/-- The epoch table: for each epoch number, whether _gnutls_epoch_get finds
it, and the usage_cnt field of its record_parameters_st. -/
structure EpochTable where
  present : Nat → Bool
  usage : Nat → Int

/-- The session fields read by the engine. -/
structure Session where
  send_buffer : List Mbuffer
  hsk_mtu : Nat
  retrans_timeout : Nat
  total_timeout : Nat
  entity : ConnectionEnd
  resumed : Bool
  epochs : EpochTable

/-- Responses of the external collaborators: the result of the record-layer
send for fragment f of message m on attempt k, whether the fragment buffer
allocation succeeds, the flush result per attempt, and the bounded receive
result and first received byte per attempt. -/
structure NetOracle where
  sendRes : Nat → Nat → Nat → Int
  allocOk : Nat → Nat → Bool
  flushRes : Nat → Int
  recvRes : Nat → Int
  recvByte : Nat → Nat

/-- One transport write performed through _gnutls_send_int. -/
structure SendEvent where
  contentType : Nat
  htype : Int
  epoch : Nat
  payload : List Nat
deriving DecidableEq

/-- _gnutls_write_uint24: three big-endian bytes. -/
def _gnutls_write_uint24 (n : Nat) : List Nat :=
  [n / 65536 % 256, n / 256 % 256, n % 256]

/-- _gnutls_write_uint16: two big-endian bytes. -/
def _gnutls_write_uint16 (n : Nat) : List Nat :=
  [n / 256 % 256, n % 256]

/-- The fixed 12-byte fragment header written into mtu_data: handshake type,
total length, handshake sequence, fragment offset, fragment length. -/
def handshakeHeader (htype dataSize seq offset fragLen : Nat) : List Nat :=
  [htype % 256] ++ _gnutls_write_uint24 dataSize ++ _gnutls_write_uint16 seq ++
    _gnutls_write_uint24 offset ++ _gnutls_write_uint24 fragLen

/-- The fragmentation loop of transmit_message: starting from a fragment
offset, while offset is at most data_size, compute the fragment length,
send header plus payload slice, and stop early on a negative send result.
The fuel argument bounds the number of iterations; transmit_message passes
data_size + 1, which is never exhausted when the MTU is positive (the C
loop does not terminate when the MTU is zero). -/
def fragmentLoop (mtu : Nat) (bufel : Mbuffer) (dataSize : Nat) (data : List Nat)
    (sendRes : Nat → Int) : Nat → Nat → Nat → Int → List SendEvent × Int
  | 0, _, _, ret => ([], ret)
  | fuel + 1, offset, fragIdx, ret =>
    if offset ≤ dataSize then
      let frag_len := if dataSize < offset + mtu then dataSize - offset else mtu
      let payload := handshakeHeader bufel.htype dataSize bufel.sequence offset frag_len ++
        (data.drop offset).take frag_len
      let ev : SendEvent :=
        { contentType := GNUTLS_HANDSHAKE, htype := (bufel.htype : Int),
          epoch := bufel.epoch, payload := payload }
      let r := sendRes fragIdx
      if r < 0 then ([ev], r)
      else
        let rest := fragmentLoop mtu bufel dataSize data sendRes fuel (offset + mtu)
          (fragIdx + 1) r
        (ev :: rest.1, rest.2)
    else ([], ret)

/-- transmit_message: a change cipher spec message is sent as one write of
its raw user-header content under its own epoch; otherwise the fragment
buffer is allocated (failure returns GNUTLS_E_MEMORY_ERROR) and the message
is chopped into MTU-sized fragments. -/
def transmit_message (allocOk : Bool) (sendRes : Nat → Int) (mtu : Nat)
    (bufel : Mbuffer) : List SendEvent × Int :=
  if bufel.htype = GNUTLS_HANDSHAKE_CHANGE_CIPHER_SPEC then
    ([{ contentType := GNUTLS_CHANGE_CIPHER_SPEC, htype := -1, epoch := bufel.epoch,
        payload := _mbuffer_get_uhead_ptr bufel }], sendRes 0)
  else if allocOk then
    fragmentLoop mtu bufel (_mbuffer_get_udata_size bufel) (_mbuffer_get_udata_ptr bufel)
      sendRes (_mbuffer_get_udata_size bufel + 1) 0 0 0
  else ([], GNUTLS_E_MEMORY_ERROR)

/-- drop_usage_count: walk the send buffer; for each message look up its
epoch (a failed lookup returns the lookup error), decrement the usage
count, and return GNUTLS_E_INTERNAL_ERROR if the count became negative. -/
def drop_usage_count : List Mbuffer → EpochTable → EpochTable × Int
  | [], t => (t, 0)
  | cur :: rest, t =>
    if t.present cur.epoch then
      let t2 : EpochTable :=
        { t with usage := fun e => if e = cur.epoch then t.usage cur.epoch - 1 else t.usage e }
      if t2.usage cur.epoch < 0 then (t2, GNUTLS_E_INTERNAL_ERROR)
      else drop_usage_count rest t2
    else (t, GNUTLS_E_INVALID_REQUEST)

/-- Number of messages in a flight that reference a given epoch. -/
def epochMultiplicity (msgs : List Mbuffer) (e : Nat) : Nat :=
  msgs.countP (fun m => m.epoch == e)

/-- The compound condition at line 171: the last message sent was Finished
and this side sends the final flight of the handshake (server on a fresh
handshake, or client on a resumed handshake). -/
def sendsLastFlight (s : Session) (last_type : Nat) : Bool :=
  decide (last_type = GNUTLS_HANDSHAKE_FINISHED) &&
    ((decide (s.entity = ConnectionEnd.GNUTLS_SERVER) && !s.resumed) ||
     (decide (s.entity = ConnectionEnd.GNUTLS_CLIENT) && s.resumed))

/-- Outcome of the waiting step: how many bytes the bounded receive was
asked for, and the value the loop variable ret holds afterwards. -/
structure WaitOutcome where
  bytesRequested : Nat
  waitRet : Int

/-- The waiting step of one attempt (lines 170 to 190): in the final-flight
case wait for one byte, treat a timeout as success and a received handshake
byte as a retransmission request; otherwise wait for any data at all. -/
def waitStep (s : Session) (net : NetOracle) (attempt : Nat) (last_type : Nat) :
    WaitOutcome :=
  if sendsLastFlight s last_type then
    let r := net.recvRes attempt
    if r = GNUTLS_E_TIMEDOUT then { bytesRequested := 1, waitRet := 0 }
    else if 0 ≤ r then
      if net.recvByte attempt = GNUTLS_HANDSHAKE then
        { bytesRequested := 1, waitRet := GNUTLS_E_TIMEDOUT }
      else { bytesRequested := 1, waitRet := r }
    else { bytesRequested := 1, waitRet := r }
  else { bytesRequested := 0, waitRet := net.recvRes attempt }

/-- The value of the last_type variable after the per-message send loop:
the handshake type of the last buffered message, or the incoming value if
the buffer is empty. -/
def flightLastType : List Mbuffer → Nat → Nat
  | [], lt => lt
  | cur :: rest, _ => flightLastType rest cur.htype

/-- The per-message send loop of one attempt (lines 159 to 164): transmit
every buffered message in order, remembering the last handshake type.  The
result of transmit_message is discarded, exactly as in the C code. -/
def sendFlight (s : Session) (net : NetOracle) (attempt : Nat) :
    List Mbuffer → Nat → Nat → List SendEvent × Nat
  | [], _, lt => ([], lt)
  | cur :: rest, msgIdx, _ =>
    let tm := transmit_message (net.allocOk attempt msgIdx) (net.sendRes attempt msgIdx)
      s.hsk_mtu cur
    let rest2 := sendFlight s net attempt rest (msgIdx + 1) cur.htype
    (tm.1 ++ rest2.1, rest2.2)

/-- How _gnutls_dtls_transmit exited. -/
inductive ExitKind where
  | flushError
  | deadline
  | waitError
  | success
  | noProgress
deriving DecidableEq

/-- Observable outcome of _gnutls_dtls_transmit: all transport writes, the
number of flight transmission attempts, the final value of the
total_timeout counter, the return value, which exit was taken, whether the
code at the cleanup label ran, and the final epoch table and send buffer. -/
structure TransmitResult where
  events : List SendEvent
  attempts : Nat
  totalWaited : Nat
  ret : Int
  exit : ExitKind
  cleanupRun : Bool
  epochs : EpochTable
  send_buffer : List Mbuffer

/-- The cleanup label (lines 207 to 212): drop the usage counts (result
discarded, as in the C code), clear the send buffer, and return ret. -/
def finishWithCleanup (s : Session) (events : List SendEvent)
    (attempts totalWaited : Nat) (ret : Int) (exit : ExitKind) : TransmitResult :=
  let dropped := drop_usage_count s.send_buffer s.epochs
  { events := events, attempts := attempts, totalWaited := totalWaited, ret := ret,
    exit := exit, cleanupRun := true, epochs := dropped.1, send_buffer := [] }

/-- The do-while loop of _gnutls_dtls_transmit.  One iteration sends the
whole flight, flushes (a negative flush returns at once, skipping the
cleanup label), waits, adds the retransmission interval to the
total_timeout counter, aborts through cleanup once the counter reaches the
configured total timeout, and otherwise loops on GNUTLS_E_TIMEDOUT.  The
fuel argument bounds the iterations; _gnutls_dtls_transmit passes
total_timeout + 1, which is never exhausted when the retransmission
interval is positive (with a zero interval the C loop can spin forever;
that case surfaces here as the noProgress exit). -/
def transmitLoop (s : Session) (net : NetOracle) :
    Nat → List SendEvent → Nat → Nat → Nat → TransmitResult
  | 0, events, attempt, total, _ =>
    { events := events, attempts := attempt, totalWaited := total,
      ret := GNUTLS_E_TIMEDOUT, exit := ExitKind.noProgress, cleanupRun := false,
      epochs := s.epochs, send_buffer := s.send_buffer }
  | fuel + 1, events, attempt, total, lt =>
    let sf := sendFlight s net attempt s.send_buffer 0 lt
    let events2 := events ++ sf.1
    let last_type := sf.2
    let flush := net.flushRes attempt
    if flush < 0 then
      { events := events2, attempts := attempt + 1, totalWaited := total, ret := flush,
        exit := ExitKind.flushError, cleanupRun := false, epochs := s.epochs,
        send_buffer := s.send_buffer }
    else
      let w := waitStep s net attempt last_type
      let total2 := total + s.retrans_timeout
      if s.total_timeout ≤ total2 then
        finishWithCleanup s events2 (attempt + 1) total2 GNUTLS_E_TIMEDOUT ExitKind.deadline
      else if w.waitRet = GNUTLS_E_TIMEDOUT then
        transmitLoop s net fuel events2 (attempt + 1) total2 last_type
      else if w.waitRet < 0 then
        finishWithCleanup s events2 (attempt + 1) total2 w.waitRet ExitKind.waitError
      else
        finishWithCleanup s events2 (attempt + 1) total2 0 ExitKind.success

/-- _gnutls_dtls_transmit: run the retransmission loop starting with an
empty event list, attempt 0, a zeroed total_timeout counter, and last_type
initialized to 0. -/
def _gnutls_dtls_transmit (s : Session) (net : NetOracle) : TransmitResult :=
  transmitLoop s net (s.total_timeout + 1) [] 0 0 0

/-- gnutls_dtls_set_timeouts: store the two timeout tunables. -/
def gnutls_dtls_set_timeouts (s : Session) (retrans_timeout total_timeout : Nat) :
    Session :=
  { s with retrans_timeout := retrans_timeout, total_timeout := total_timeout }

/-! Basic structural lemmas about the embedded definitions. -/

lemma handshakeHeader_length (a b c d e : Nat) :
    (handshakeHeader a b c d e).length = DTLS_HANDSHAKE_HEADER_SIZE := rfl

lemma handshakeHeader_append_drop (a b c d e : Nat) (l : List Nat) :
    (handshakeHeader a b c d e ++ l).drop DTLS_HANDSHAKE_HEADER_SIZE = l := by
  have h : DTLS_HANDSHAKE_HEADER_SIZE = (handshakeHeader a b c d e).length := rfl
  rw [h, List.drop_left]

lemma fragmentLoop_past (mtu : Nat) (bufel : Mbuffer) (dataSize : Nat) (data : List Nat)
    (sendRes : Nat → Int) (offset : Nat) (h : dataSize < offset) :
    ∀ fuel fragIdx ret,
      fragmentLoop mtu bufel dataSize data sendRes fuel offset fragIdx ret = ([], ret) := by
  intro fuel fragIdx ret
  cases fuel with
  | zero => rfl
  | succ n =>
    have h2 : ¬ offset ≤ dataSize := by omega
    simp [fragmentLoop, h2]

lemma flightLastType_idem (msgs : List Mbuffer) (lt : Nat) :
    flightLastType msgs (flightLastType msgs lt) = flightLastType msgs lt := by
  cases msgs <;> rfl

lemma sendFlight_snd (s : Session) (net : NetOracle) (attempt : Nat) :
    ∀ (msgs : List Mbuffer) (msgIdx lt : Nat),
      (sendFlight s net attempt msgs msgIdx lt).2 = flightLastType msgs lt := by
  intro msgs
  induction msgs with
  | nil => intro _ _; rfl
  | cons cur rest ih =>
    intro msgIdx lt
    simp [sendFlight, flightLastType, ih (msgIdx + 1) cur.htype]

/-- Claim C9: a buffered change cipher spec message is transmitted by
transmit_message as exactly one transport write of its raw user-header
content, under the change cipher spec record type and the epoch of the message
itself, with no 12-byte fragment header prepended; no fragmentation occurs
and the result does not depend on the fragment-buffer allocation outcome. -/
theorem ccs_passthrough (allocOk : Bool) (sendRes : Nat → Int) (mtu : Nat)
    (bufel : Mbuffer) (h : bufel.htype = GNUTLS_HANDSHAKE_CHANGE_CIPHER_SPEC) :
    transmit_message allocOk sendRes mtu bufel =
      ([{ contentType := GNUTLS_CHANGE_CIPHER_SPEC, htype := -1, epoch := bufel.epoch,
          payload := bufel.uhead }], sendRes 0) := by
  simp [transmit_message, h, _mbuffer_get_uhead_ptr]

/-- Witness for ccs_passthrough at a concrete change cipher spec message. -/
theorem ccs_passthrough_witness :
    (⟨254, 3, 2, [1], []⟩ : Mbuffer).htype = GNUTLS_HANDSHAKE_CHANGE_CIPHER_SPEC ∧
    transmit_message false (fun _ => 0) 5 ⟨254, 3, 2, [1], []⟩ =
      ([{ contentType := GNUTLS_CHANGE_CIPHER_SPEC, htype := -1, epoch := 2,
          payload := [1] }], 0) :=
  ⟨by decide, ccs_passthrough false (fun _ => 0) 5 ⟨254, 3, 2, [1], []⟩ (by decide)⟩

/-! Epoch usage release: conservation and violation detection. -/

lemma epochMultiplicity_cons (cur : Mbuffer) (rest : List Mbuffer) (e : Nat) :
    epochMultiplicity (cur :: rest) e =
      epochMultiplicity rest e + (if cur.epoch = e then 1 else 0) := by
  simp [epochMultiplicity, List.countP_cons]

lemma drop_usage_count_conservation :
    ∀ (msgs : List Mbuffer) (t : EpochTable),
      (∀ m ∈ msgs, t.present m.epoch = true) →
      (∀ e, (epochMultiplicity msgs e : Int) ≤ t.usage e) →
      (drop_usage_count msgs t).2 = 0 ∧
      (∀ e, (drop_usage_count msgs t).1.usage e =
        t.usage e - (epochMultiplicity msgs e : Int)) ∧
      (∀ e, (drop_usage_count msgs t).1.present e = t.present e) := by
  intro msgs
  induction msgs with
  | nil =>
    intro t _ _
    refine ⟨rfl, fun e => ?_, fun e => rfl⟩
    simp [drop_usage_count, epochMultiplicity]
  | cons cur rest ih =>
    intro t hpres hcnt
    have hp : t.present cur.epoch = true := hpres cur (by simp)
    have hm : epochMultiplicity (cur :: rest) cur.epoch =
        epochMultiplicity rest cur.epoch + 1 := by
      simp [epochMultiplicity_cons]
    have husage : 1 ≤ t.usage cur.epoch := by
      have h := hcnt cur.epoch
      rw [hm] at h
      push_cast at h
      omega
    set t2 : EpochTable :=
      { t with usage := fun e => if e = cur.epoch then t.usage cur.epoch - 1 else t.usage e }
      with ht2
    have hstep : drop_usage_count (cur :: rest) t = drop_usage_count rest t2 := by
      have h1 : ¬ t.usage cur.epoch < 1 := by omega
      simp [drop_usage_count, hp, ht2, h1]
    have hpres2 : ∀ m ∈ rest, t2.present m.epoch = true := by
      intro m hmem
      exact hpres m (List.mem_cons_of_mem cur hmem)
    have hcnt2 : ∀ e, (epochMultiplicity rest e : Int) ≤ t2.usage e := by
      intro e
      have h := hcnt e
      rw [epochMultiplicity_cons] at h
      by_cases he : cur.epoch = e
      · subst he
        simp [ht2]
        push_cast at h
        omega
      · have : t2.usage e = t.usage e := by
          simp [ht2]
          intro h2
          exact absurd h2.symm he
        rw [this]
        simp [he] at h
        omega
    obtain ⟨hret, husg, hprs⟩ := ih t2 hpres2 hcnt2
    rw [hstep]
    refine ⟨hret, fun e => ?_, fun e => (hprs e).trans rfl⟩
    rw [husg e, epochMultiplicity_cons]
    by_cases he : cur.epoch = e
    · subst he
      simp [ht2]
      omega
    · have : t2.usage e = t.usage e := by
        simp [ht2]
        intro h2
        exact absurd h2.symm he
      rw [this]
      simp [he]

lemma drop_usage_count_negative (m : Mbuffer) (rest : List Mbuffer) (t : EpochTable)
    (hp : t.present m.epoch = true) (hu : t.usage m.epoch ≤ 0) :
    (drop_usage_count (m :: rest) t).2 = GNUTLS_E_INTERNAL_ERROR := by
  have hlt : t.usage m.epoch < 1 := by omega
  simp [drop_usage_count, hp, hlt]

lemma drop_usage_count_lookup_failure (m : Mbuffer) (rest : List Mbuffer)
    (t : EpochTable) (hp : t.present m.epoch = false) :
    (drop_usage_count (m :: rest) t).2 = GNUTLS_E_INVALID_REQUEST := by
  simp [drop_usage_count, hp]

/-- Claim C4 (amended): releasing a flight whose epochs are all present and
whose usage counts are at least the multiplicity of each epoch decreases every
usage count by exactly its multiplicity in the flight and leaves no count
negative; a usage count that would go negative, or a failed epoch lookup,
makes drop_usage_count stop and return GNUTLS_E_INTERNAL_ERROR respectively
the lookup error to its caller _gnutls_dtls_transmit, which however
discards that value instead of surfacing it. -/
theorem usage_count_release (msgs : List Mbuffer) (t : EpochTable) (m : Mbuffer)
    (rest : List Mbuffer) :
    ((∀ x ∈ msgs, t.present x.epoch = true) →
      (∀ e, (epochMultiplicity msgs e : Int) ≤ t.usage e) →
      (drop_usage_count msgs t).2 = 0 ∧
      (∀ e, (drop_usage_count msgs t).1.usage e =
        t.usage e - (epochMultiplicity msgs e : Int)) ∧
      (∀ e, 0 ≤ (drop_usage_count msgs t).1.usage e)) ∧
    (t.present m.epoch = true → t.usage m.epoch ≤ 0 →
      (drop_usage_count (m :: rest) t).2 = GNUTLS_E_INTERNAL_ERROR) ∧
    (t.present m.epoch = false →
      (drop_usage_count (m :: rest) t).2 = GNUTLS_E_INVALID_REQUEST) := by
  refine ⟨fun hpres hcnt => ?_, drop_usage_count_negative m rest t,
    drop_usage_count_lookup_failure m rest t⟩
  obtain ⟨h1, h2, _⟩ := drop_usage_count_conservation msgs t hpres hcnt
  refine ⟨h1, h2, fun e => ?_⟩
  rw [h2 e]
  have := hcnt e
  omega

def msgs4 : List Mbuffer := [{ htype := 1, sequence := 0, epoch := 3, uhead := [], udata := [9] }]

def table4ok : EpochTable := { present := fun _ => true, usage := fun _ => 1 }

def msg4 : Mbuffer := { htype := 1, sequence := 0, epoch := 7, uhead := [], udata := [9] }

def table4zero : EpochTable := { present := fun _ => true, usage := fun _ => 0 }

/-- Witness for usage_count_release on a concrete one-message flight. -/
theorem usage_count_release_witness :
    (∀ x ∈ msgs4, table4ok.present x.epoch = true) ∧
    (drop_usage_count msgs4 table4ok).2 = 0 ∧
    (drop_usage_count msgs4 table4ok).1.usage 3 =
      table4ok.usage 3 - (epochMultiplicity msgs4 3 : Int) ∧
    0 ≤ (drop_usage_count msgs4 table4ok).1.usage 3 ∧
    (drop_usage_count (msg4 :: []) table4zero).2 = GNUTLS_E_INTERNAL_ERROR := by
  have hcnt : ∀ e, (epochMultiplicity msgs4 e : Int) ≤ table4ok.usage e := by
    intro e
    have h := List.countP_le_length (p := fun m => m.epoch == e) (l := msgs4)
    have h2 : epochMultiplicity msgs4 e ≤ 1 := by
      simpa [epochMultiplicity, msgs4] using h
    simp only [table4ok]
    omega
  obtain ⟨h1, _, _⟩ := usage_count_release msgs4 table4ok msg4 []
  obtain ⟨_, hneg, _⟩ := usage_count_release msgs4 table4zero msg4 []
  obtain ⟨ha, hb, hc⟩ := h1 (by decide) hcnt
  exact ⟨by decide, ha, hb 3, hc 3, hneg (by decide) (by decide)⟩

def flight4 : List Mbuffer :=
  [{ htype := 1, sequence := 0, epoch := 7, uhead := [], udata := [9] }]

def session4 : Session :=
  { send_buffer := flight4, hsk_mtu := 4, retrans_timeout := 1, total_timeout := 10,
    entity := ConnectionEnd.GNUTLS_CLIENT, resumed := false,
    epochs := { present := fun _ => true, usage := fun _ => 0 } }

def net4 : NetOracle :=
  { sendRes := fun _ _ _ => 0, allocOk := fun _ _ => true, flushRes := fun _ => 0,
    recvRes := fun _ => 0, recvByte := fun _ => 0 }

/-- Claim C4 counterexample: with a single buffered message whose epoch
usage count is already 0, release drives the count negative and
drop_usage_count returns GNUTLS_E_INTERNAL_ERROR, but _gnutls_dtls_transmit
discards that value and still returns 0: the internal-consistency error is
silently swallowed rather than surfaced to the caller of the entry point. -/
theorem usage_violation_swallowed :
    (drop_usage_count session4.send_buffer session4.epochs).2 = GNUTLS_E_INTERNAL_ERROR ∧
    (_gnutls_dtls_transmit session4 net4).cleanupRun = true ∧
    (_gnutls_dtls_transmit session4 net4).ret = 0 := by decide

/-! Release behaviour of the retransmission loop on its exit paths. -/

lemma transmitLoop_exit_cases (s : Session) (net : NetOracle) :
    ∀ fuel events attempt total lt,
      (transmitLoop s net fuel events attempt total lt).exit = ExitKind.flushError ∨
      (transmitLoop s net fuel events attempt total lt).exit = ExitKind.noProgress ∨
      ((transmitLoop s net fuel events attempt total lt).cleanupRun = true ∧
       (transmitLoop s net fuel events attempt total lt).send_buffer = [] ∧
       (transmitLoop s net fuel events attempt total lt).epochs =
         (drop_usage_count s.send_buffer s.epochs).1)
  | 0, _, _, _, _ => Or.inr (Or.inl rfl)
  | fuel + 1, events, attempt, total, lt => by
    simp only [transmitLoop]
    split
    · exact Or.inl rfl
    · split
      · exact Or.inr (Or.inr ⟨rfl, rfl, rfl⟩)
      · split
        · exact transmitLoop_exit_cases s net fuel _ _ _ _
        · split
          · exact Or.inr (Or.inr ⟨rfl, rfl, rfl⟩)
          · exact Or.inr (Or.inr ⟨rfl, rfl, rfl⟩)

/-- Claim C1 (amended): on every terminal outcome of _gnutls_dtls_transmit
that goes through the cleanup label, namely success, total-deadline timeout
and a receive error, the usage counts of the buffered messages are dropped
via drop_usage_count and the flight buffer is cleared; the early return on
a transport flush error is the one exit that skips this release step. -/
theorem release_on_terminal_outcomes (s : Session) (net : NetOracle)
    (h1 : (_gnutls_dtls_transmit s net).exit ≠ ExitKind.flushError)
    (h2 : (_gnutls_dtls_transmit s net).exit ≠ ExitKind.noProgress) :
    (_gnutls_dtls_transmit s net).cleanupRun = true ∧
    (_gnutls_dtls_transmit s net).send_buffer = [] ∧
    (_gnutls_dtls_transmit s net).epochs =
      (drop_usage_count s.send_buffer s.epochs).1 := by
  rcases transmitLoop_exit_cases s net (s.total_timeout + 1) [] 0 0 0 with h | h | h
  · exact absurd h h1
  · exact absurd h h2
  · exact h

def flight1 : List Mbuffer :=
  [{ htype := 1, sequence := 0, epoch := 5, uhead := [], udata := [8, 8] }]

def session1 : Session :=
  { send_buffer := flight1, hsk_mtu := 4, retrans_timeout := 1, total_timeout := 10,
    entity := ConnectionEnd.GNUTLS_CLIENT, resumed := false,
    epochs := { present := fun _ => true, usage := fun _ => 1 } }

def net1good : NetOracle :=
  { sendRes := fun _ _ _ => 0, allocOk := fun _ _ => true, flushRes := fun _ => 0,
    recvRes := fun _ => 0, recvByte := fun _ => 0 }

def net1flushfail : NetOracle :=
  { sendRes := fun _ _ _ => 0, allocOk := fun _ _ => true,
    flushRes := fun _ => GNUTLS_E_PUSH_ERROR, recvRes := fun _ => 0,
    recvByte := fun _ => 0 }

/-- Witness for release_on_terminal_outcomes on a concrete successful run. -/
theorem release_on_terminal_outcomes_witness :
    (_gnutls_dtls_transmit session1 net1good).exit ≠ ExitKind.flushError ∧
    (_gnutls_dtls_transmit session1 net1good).exit ≠ ExitKind.noProgress ∧
    ((_gnutls_dtls_transmit session1 net1good).cleanupRun = true ∧
     (_gnutls_dtls_transmit session1 net1good).send_buffer = [] ∧
     (_gnutls_dtls_transmit session1 net1good).epochs =
       (drop_usage_count session1.send_buffer session1.epochs).1) :=
  ⟨by decide, by decide,
    release_on_terminal_outcomes session1 net1good (by decide) (by decide)⟩

/-- Claim C1 counterexample: when the transport flush fails on the first
attempt, _gnutls_dtls_transmit returns the flush error directly; the
cleanup label is skipped, the usage count of the epoch of the buffered message
stays undecremented and the flight buffer is not cleared, so this exit path
does skip the release step. -/
theorem flush_error_skips_release :
    (_gnutls_dtls_transmit session1 net1flushfail).ret = GNUTLS_E_PUSH_ERROR ∧
    (_gnutls_dtls_transmit session1 net1flushfail).exit = ExitKind.flushError ∧
    (_gnutls_dtls_transmit session1 net1flushfail).cleanupRun = false ∧
    (_gnutls_dtls_transmit session1 net1flushfail).epochs.usage 5 = 1 ∧
    (_gnutls_dtls_transmit session1 net1flushfail).send_buffer = flight1 ∧
    flight1 ≠ [] := by decide

/-! Deadline arithmetic and the all-timeout run of the loop. -/

def ceilDiv (a b : Nat) : Nat := (a + b - 1) / b

lemma ceilDiv_eq_one {a b : Nat} (h1 : 0 < a) (h2 : a ≤ b) : ceilDiv a b = 1 := by
  have hb : 0 < b := lt_of_lt_of_le h1 h2
  have he : a + b - 1 = (a - 1) + b := by omega
  rw [ceilDiv, he, Nat.add_div_right _ hb, Nat.div_eq_of_lt (by omega)]

lemma ceilDiv_rec {a b : Nat} (h1 : 0 < b) (h2 : b < a) :
    ceilDiv a b = ceilDiv (a - b) b + 1 := by
  have he : a + b - 1 = ((a - b) + b - 1) + b := by omega
  rw [ceilDiv, he, Nat.add_div_right _ h1, ceilDiv]

lemma ceilDiv_mul_lt {a b : Nat} (h1 : 0 < a) (h2 : 0 < b) :
    ceilDiv a b * b < a + b := by
  have he : a + b - 1 = (a - 1) + b := by omega
  rw [ceilDiv, he, Nat.add_div_right _ h2]
  have hd := Nat.div_mul_le_self (a - 1) b
  calc ((a - 1) / b + 1) * b = (a - 1) / b * b + b := by ring
    _ ≤ (a - 1) + b := by omega
    _ < a + b := by omega

lemma waitStep_generic (s : Session) (net : NetOracle) (attempt lt : Nat)
    (h : sendsLastFlight s lt = false) :
    waitStep s net attempt lt =
      { bytesRequested := 0, waitRet := net.recvRes attempt } := by
  simp [waitStep, h]

lemma transmitLoop_all_timeout (s : Session) (net : NetOracle)
    (hR : 0 < s.retrans_timeout)
    (hfin : sendsLastFlight s (flightLastType s.send_buffer 0) = false)
    (hrecv : ∀ k, net.recvRes k = GNUTLS_E_TIMEDOUT)
    (hflush : ∀ k, 0 ≤ net.flushRes k) :
    ∀ fuel total attempt events lt,
      total < s.total_timeout →
      s.total_timeout - total ≤ fuel →
      flightLastType s.send_buffer lt = flightLastType s.send_buffer 0 →
      (transmitLoop s net fuel events attempt total lt).attempts =
        attempt + ceilDiv (s.total_timeout - total) s.retrans_timeout ∧
      (transmitLoop s net fuel events attempt total lt).totalWaited =
        total + ceilDiv (s.total_timeout - total) s.retrans_timeout * s.retrans_timeout ∧
      (transmitLoop s net fuel events attempt total lt).ret = GNUTLS_E_TIMEDOUT ∧
      (transmitLoop s net fuel events attempt total lt).exit = ExitKind.deadline := by
  intro fuel
  induction fuel with
  | zero => intro total attempt events lt h1 h2 _; omega
  | succ fuel ih =>
    intro total attempt events lt h1 h2 hlt
    have hflush2 : ¬ net.flushRes attempt < 0 := not_lt.mpr (hflush attempt)
    have hlast : (sendFlight s net attempt s.send_buffer 0 lt).2 =
        flightLastType s.send_buffer lt := sendFlight_snd s net attempt s.send_buffer 0 lt
    have hwait : waitStep s net attempt (sendFlight s net attempt s.send_buffer 0 lt).2 =
        { bytesRequested := 0, waitRet := net.recvRes attempt } := by
      rw [hlast, hlt]
      exact waitStep_generic s net attempt _ hfin
    by_cases hdl : s.total_timeout ≤ total + s.retrans_timeout
    · have hceil : ceilDiv (s.total_timeout - total) s.retrans_timeout = 1 :=
        ceilDiv_eq_one (by omega) (by omega)
      have hstep : transmitLoop s net (fuel + 1) events attempt total lt =
          finishWithCleanup s (events ++ (sendFlight s net attempt s.send_buffer 0 lt).1)
            (attempt + 1) (total + s.retrans_timeout) GNUTLS_E_TIMEDOUT
            ExitKind.deadline := by
        simp [transmitLoop, hflush2, hdl]
      rw [hstep, hceil]
      refine ⟨by simp [finishWithCleanup], ?_, rfl, rfl⟩
      simp [finishWithCleanup]
    · have hwr : (waitStep s net attempt
          (sendFlight s net attempt s.send_buffer 0 lt).2).waitRet = GNUTLS_E_TIMEDOUT := by
        rw [hwait]
        exact hrecv attempt
      have hstep : transmitLoop s net (fuel + 1) events attempt total lt =
          transmitLoop s net fuel
            (events ++ (sendFlight s net attempt s.send_buffer 0 lt).1) (attempt + 1)
            (total + s.retrans_timeout) (sendFlight s net attempt s.send_buffer 0 lt).2 := by
        simp [transmitLoop, hflush2, hdl, hwr]
      have hlt2 : flightLastType s.send_buffer
          (sendFlight s net attempt s.send_buffer 0 lt).2 =
          flightLastType s.send_buffer 0 := by
        rw [hlast, flightLastType_idem, hlt]
      obtain ⟨ha, hb, hc, hd⟩ := ih (total + s.retrans_timeout) (attempt + 1)
        (events ++ (sendFlight s net attempt s.send_buffer 0 lt).1)
        (sendFlight s net attempt s.send_buffer 0 lt).2 (by omega) (by omega) hlt2
      have hrec : ceilDiv (s.total_timeout - total) s.retrans_timeout =
          ceilDiv (s.total_timeout - total - s.retrans_timeout) s.retrans_timeout + 1 :=
        ceilDiv_rec hR (by omega)
      have hsub : s.total_timeout - (total + s.retrans_timeout) =
          s.total_timeout - total - s.retrans_timeout := by omega
      rw [hsub] at ha hb
      rw [hstep]
      refine ⟨?_, ?_, hc, hd⟩
      · rw [ha, hrec]
        omega
      · rw [hb, hrec]
        ring

/-- Claim C3 (amended): for retransmission interval R greater than 0, total
timeout T greater than 0, a flight whose acknowledgment semantics is the
implicit-acknowledgment regime (the Finished special case is not active),
and a peer that never responds (every bounded wait reports timeout while
every flush succeeds), _gnutls_dtls_transmit performs exactly the ceiling
of T divided by R full-flight transmission attempts and then reports
GNUTLS_E_TIMEDOUT; the accumulated wait it sums equals that attempt count
times R, which can exceed T by up to R - 1 but always stays below T + R. -/
theorem deadline_termination (s : Session) (net : NetOracle)
    (hR : 0 < s.retrans_timeout) (hT : 0 < s.total_timeout)
    (hfin : sendsLastFlight s (flightLastType s.send_buffer 0) = false)
    (hrecv : ∀ k, net.recvRes k = GNUTLS_E_TIMEDOUT)
    (hflush : ∀ k, 0 ≤ net.flushRes k) :
    (_gnutls_dtls_transmit s net).attempts =
      ceilDiv s.total_timeout s.retrans_timeout ∧
    (_gnutls_dtls_transmit s net).ret = GNUTLS_E_TIMEDOUT ∧
    (_gnutls_dtls_transmit s net).totalWaited =
      ceilDiv s.total_timeout s.retrans_timeout * s.retrans_timeout ∧
    (_gnutls_dtls_transmit s net).totalWaited <
      s.total_timeout + s.retrans_timeout := by
  simp only [_gnutls_dtls_transmit]
  obtain ⟨ha, hb, hc, _⟩ := transmitLoop_all_timeout s net hR hfin hrecv hflush
    (s.total_timeout + 1) 0 0 [] 0 hT (by omega) rfl
  have h0 : s.total_timeout - 0 = s.total_timeout := by omega
  rw [h0] at ha hb
  refine ⟨by simpa using ha, hc, by simpa using hb, ?_⟩
  rw [hb]
  simpa using ceilDiv_mul_lt hT hR

def session3 : Session :=
  { send_buffer := [], hsk_mtu := 4, retrans_timeout := 3, total_timeout := 4,
    entity := ConnectionEnd.GNUTLS_CLIENT, resumed := false,
    epochs := { present := fun _ => true, usage := fun _ => 0 } }

def net3 : NetOracle :=
  { sendRes := fun _ _ _ => 0, allocOk := fun _ _ => true, flushRes := fun _ => 0,
    recvRes := fun _ => GNUTLS_E_TIMEDOUT, recvByte := fun _ => 0 }

/-- Witness for deadline_termination with interval 3 and total timeout 4. -/
theorem deadline_termination_witness :
    0 < session3.retrans_timeout ∧ 0 < session3.total_timeout ∧
    sendsLastFlight session3 (flightLastType session3.send_buffer 0) = false ∧
    ((_gnutls_dtls_transmit session3 net3).attempts =
       ceilDiv session3.total_timeout session3.retrans_timeout ∧
     (_gnutls_dtls_transmit session3 net3).ret = GNUTLS_E_TIMEDOUT ∧
     (_gnutls_dtls_transmit session3 net3).totalWaited =
       ceilDiv session3.total_timeout session3.retrans_timeout * session3.retrans_timeout ∧
     (_gnutls_dtls_transmit session3 net3).totalWaited <
       session3.total_timeout + session3.retrans_timeout) :=
  ⟨by decide, by decide, by decide,
    deadline_termination session3 net3 (by decide) (by decide) (by decide)
      (fun k => rfl) (fun k => le_refl 0)⟩

/-- Claim C3 counterexample: with retransmission interval 3, total timeout
4 and a peer that never responds, the engine performs 2 attempts (the
ceiling of 4 over 3) but its accumulated wait counter reaches 6, which
exceeds the total timeout 4: the accumulated wait is not bounded by T. -/
theorem accumulated_wait_exceeds_total :
    (_gnutls_dtls_transmit session3 net3).ret = GNUTLS_E_TIMEDOUT ∧
    (_gnutls_dtls_transmit session3 net3).attempts = 2 ∧
    (_gnutls_dtls_transmit session3 net3).totalWaited = 6 ∧
    ¬ (_gnutls_dtls_transmit session3 net3).totalWaited ≤ session3.total_timeout := by
  decide

/-! Single-step unfoldings of the fragmentation loop. -/

lemma fragmentLoop_step (mtu : Nat) (bufel : Mbuffer) (dataSize : Nat) (data : List Nat)
    (sendRes : Nat → Int) (fuel offset fragIdx : Nat) (ret : Int)
    (h1 : offset ≤ dataSize) (h2 : ¬ sendRes fragIdx < 0) :
    fragmentLoop mtu bufel dataSize data sendRes (fuel + 1) offset fragIdx ret =
      ({ contentType := GNUTLS_HANDSHAKE, htype := (bufel.htype : Int),
         epoch := bufel.epoch,
         payload := handshakeHeader bufel.htype dataSize bufel.sequence offset
             (if dataSize < offset + mtu then dataSize - offset else mtu) ++
           (data.drop offset).take
             (if dataSize < offset + mtu then dataSize - offset else mtu) } ::
        (fragmentLoop mtu bufel dataSize data sendRes fuel (offset + mtu) (fragIdx + 1)
          (sendRes fragIdx)).1,
       (fragmentLoop mtu bufel dataSize data sendRes fuel (offset + mtu) (fragIdx + 1)
         (sendRes fragIdx)).2) := by
  simp [fragmentLoop, h1, h2]

lemma fragmentLoop_stop (mtu : Nat) (bufel : Mbuffer) (dataSize : Nat) (data : List Nat)
    (sendRes : Nat → Int) (fuel offset fragIdx : Nat) (ret : Int)
    (h1 : offset ≤ dataSize) (h2 : sendRes fragIdx < 0) :
    fragmentLoop mtu bufel dataSize data sendRes (fuel + 1) offset fragIdx ret =
      ([{ contentType := GNUTLS_HANDSHAKE, htype := (bufel.htype : Int),
          epoch := bufel.epoch,
          payload := handshakeHeader bufel.htype dataSize bufel.sequence offset
              (if dataSize < offset + mtu then dataSize - offset else mtu) ++
            (data.drop offset).take
              (if dataSize < offset + mtu then dataSize - offset else mtu) }],
       sendRes fragIdx) := by
  simp [fragmentLoop, h1, h2]

lemma fragmentLoop_break (mtu : Nat) (bufel : Mbuffer) (data : List Nat)
    (sendRes : Nat → Int) (hM : 0 < mtu) :
    ∀ d fuel offset fragIdx ret,
      offset ≤ data.length →
      data.length + 1 - offset ≤ fuel →
      (∀ i, fragIdx ≤ i → i < fragIdx + d → 0 ≤ sendRes i) →
      sendRes (fragIdx + d) < 0 →
      offset + d * mtu ≤ data.length →
      (fragmentLoop mtu bufel data.length data sendRes fuel offset fragIdx ret).1.length
        = d + 1 ∧
      (fragmentLoop mtu bufel data.length data sendRes fuel offset fragIdx ret).2
        = sendRes (fragIdx + d) := by
  intro d
  induction d with
  | zero =>
    intro fuel offset fragIdx ret h1 h2 _ hneg _
    obtain ⟨f, rfl⟩ : ∃ f, fuel = f + 1 := ⟨fuel - 1, by omega⟩
    have hneg2 : sendRes fragIdx < 0 := by simpa using hneg
    rw [fragmentLoop_stop mtu bufel data.length data sendRes f offset fragIdx ret h1 hneg2]
    simp
  | succ d ihd =>
    intro fuel offset fragIdx ret h1 h2 hok hneg hbound
    obtain ⟨f, rfl⟩ : ∃ f, fuel = f + 1 := ⟨fuel - 1, by omega⟩
    have h0 : 0 ≤ sendRes fragIdx := hok fragIdx (le_refl _) (by omega)
    have hr : ¬ sendRes fragIdx < 0 := not_lt.mpr h0
    have hmul : (d + 1) * mtu = d * mtu + mtu := by ring
    have hoff : offset + mtu ≤ data.length := by omega
    have hneg2 : sendRes (fragIdx + 1 + d) < 0 := by
      have he : fragIdx + 1 + d = fragIdx + (d + 1) := by omega
      rw [he]
      exact hneg
    obtain ⟨ha, hb⟩ := ihd f (offset + mtu) (fragIdx + 1) (sendRes fragIdx) hoff (by omega)
      (fun i hi1 hi2 => hok i (by omega) (by omega)) hneg2 (by omega)
    rw [fragmentLoop_step mtu bufel data.length data sendRes f offset fragIdx ret h1 hr]
    constructor
    · simp [ha]
    · simp only []
      rw [hb]
      have he : fragIdx + 1 + d = fragIdx + (d + 1) := by omega
      rw [he]

/-! The return value of the driver does not depend on the per-message send
results nor on the fragment-buffer allocation outcomes. -/

lemma transmitLoop_ret_net_independent (s : Session) (net net2 : NetOracle)
    (hf : net.flushRes = net2.flushRes) (hr : net.recvRes = net2.recvRes)
    (hby : net.recvByte = net2.recvByte) :
    ∀ fuel events events2 attempt total lt,
      (transmitLoop s net fuel events attempt total lt).ret =
        (transmitLoop s net2 fuel events2 attempt total lt).ret ∧
      (transmitLoop s net fuel events attempt total lt).attempts =
        (transmitLoop s net2 fuel events2 attempt total lt).attempts ∧
      (transmitLoop s net fuel events attempt total lt).totalWaited =
        (transmitLoop s net2 fuel events2 attempt total lt).totalWaited ∧
      (transmitLoop s net fuel events attempt total lt).exit =
        (transmitLoop s net2 fuel events2 attempt total lt).exit := by
  intro fuel
  induction fuel with
  | zero => intro events events2 attempt total lt; exact ⟨rfl, rfl, rfl, rfl⟩
  | succ fuel ih =>
    intro events events2 attempt total lt
    have hw : waitStep s net2 attempt (sendFlight s net2 attempt s.send_buffer 0 lt).2 =
        waitStep s net attempt (sendFlight s net attempt s.send_buffer 0 lt).2 := by
      rw [sendFlight_snd, sendFlight_snd]
      simp [waitStep, hr, hby]
    simp only [transmitLoop]
    rw [← hf, hw]
    by_cases h1 : net.flushRes attempt < 0
    · simp [h1]
    · simp only [h1, if_false]
      by_cases h2 : s.total_timeout ≤ total + s.retrans_timeout
      · simp [h2, finishWithCleanup]
      · simp only [h2, if_false]
        by_cases h3 : (waitStep s net attempt
            (sendFlight s net attempt s.send_buffer 0 lt).2).waitRet = GNUTLS_E_TIMEDOUT
        · simp only [h3, if_true]
          rw [sendFlight_snd s net attempt s.send_buffer 0 lt,
            sendFlight_snd s net2 attempt s.send_buffer 0 lt]
          exact ih _ _ _ _ _
        · simp only [h3, if_false]
          by_cases h4 : (waitStep s net attempt
              (sendFlight s net attempt s.send_buffer 0 lt).2).waitRet < 0
          · simp [h4, finishWithCleanup]
          · simp [h4, finishWithCleanup]

/-- Claim C2 (amended): a fragment-buffer allocation failure makes
transmit_message return GNUTLS_E_MEMORY_ERROR, and a negative result from
the write of fragment d aborts further fragmentation of that message (the
events stop at fragment d) and becomes the return value of
transmit_message; however, _gnutls_dtls_transmit discards the result of
transmit_message, so its own return value is entirely independent of the
per-fragment send results and allocation outcomes and such errors do not
surface to the caller of the entry point. -/
theorem fragment_error_handling (s : Session) (net net2 : NetOracle)
    (bufel : Mbuffer) (sendRes : Nat → Int) (mtu d : Nat) :
    (¬ bufel.htype = GNUTLS_HANDSHAKE_CHANGE_CIPHER_SPEC →
      transmit_message false sendRes mtu bufel = ([], GNUTLS_E_MEMORY_ERROR)) ∧
    (¬ bufel.htype = GNUTLS_HANDSHAKE_CHANGE_CIPHER_SPEC → 0 < mtu →
      (∀ i, i < d → 0 ≤ sendRes i) → sendRes d < 0 → d * mtu ≤ bufel.udata.length →
      (transmit_message true sendRes mtu bufel).1.length = d + 1 ∧
      (transmit_message true sendRes mtu bufel).2 = sendRes d) ∧
    (net.flushRes = net2.flushRes → net.recvRes = net2.recvRes →
      net.recvByte = net2.recvByte →
      (_gnutls_dtls_transmit s net).ret = (_gnutls_dtls_transmit s net2).ret) := by
  refine ⟨fun h => by simp [transmit_message, h], fun h hM hok hneg hbound => ?_,
    fun hf hr hby => ?_⟩
  · have hb := fragmentLoop_break mtu bufel bufel.udata sendRes hM d
      (bufel.udata.length + 1) 0 0 0 (by omega) (by omega)
      (fun i h1 h2 => hok i (by omega)) (by simpa using hneg) (by omega)
    simpa [transmit_message, h, _mbuffer_get_udata_size, _mbuffer_get_udata_ptr] using hb
  · exact (transmitLoop_ret_net_independent s net net2 hf hr hby
      (s.total_timeout + 1) [] [] 0 0 0).1

def session2 : Session :=
  { send_buffer := [{ htype := 1, sequence := 0, epoch := 0, uhead := [], udata := [7, 8] }],
    hsk_mtu := 10, retrans_timeout := 1, total_timeout := 100,
    entity := ConnectionEnd.GNUTLS_CLIENT, resumed := false,
    epochs := { present := fun _ => true, usage := fun _ => 1 } }

def net2fail : NetOracle :=
  { sendRes := fun _ _ _ => -10, allocOk := fun _ _ => true, flushRes := fun _ => 0,
    recvRes := fun _ => 1, recvByte := fun _ => 0 }

def net2ok : NetOracle :=
  { sendRes := fun _ _ _ => 0, allocOk := fun _ _ => true, flushRes := fun _ => 0,
    recvRes := fun _ => 1, recvByte := fun _ => 0 }

def wmsg2 : Mbuffer := { htype := 1, sequence := 0, epoch := 0, uhead := [], udata := [7, 8, 9] }

/-- Witness for fragment_error_handling on concrete inputs: an allocation
failure and a first-fragment write failure each become the result of
transmit_message, and the entry point returns the same value whether the
fragment sends fail or succeed. -/
theorem fragment_error_handling_witness :
    ¬ wmsg2.htype = GNUTLS_HANDSHAKE_CHANGE_CIPHER_SPEC ∧
    transmit_message false (fun _ => -10) 2 wmsg2 = ([], GNUTLS_E_MEMORY_ERROR) ∧
    ((transmit_message true (fun _ => -10) 2 wmsg2).1.length = 0 + 1 ∧
     (transmit_message true (fun _ => -10) 2 wmsg2).2 = (fun _ : Nat => (-10 : Int)) 0) ∧
    (_gnutls_dtls_transmit session2 net2fail).ret =
      (_gnutls_dtls_transmit session2 net2ok).ret := by
  obtain ⟨hA, hB, hC⟩ :=
    fragment_error_handling session2 net2fail net2ok wmsg2 (fun _ => -10) 2 0
  exact ⟨by decide, hA (by decide),
    hB (by decide) (by decide) (fun i hi => absurd hi (by omega)) (by decide) (by decide),
    hC rfl rfl rfl⟩

/-- Claim C2 counterexample: the write of the first fragment of the single
buffered message fails with a negative result and transmit_message returns it,
but _gnutls_dtls_transmit discards it and reports success 0: the negative
fragment-write result does not propagate to the caller of the entry point. -/
theorem fragment_error_not_surfaced :
    (transmit_message (net2fail.allocOk 0 0) (net2fail.sendRes 0 0) session2.hsk_mtu
      { htype := 1, sequence := 0, epoch := 0, uhead := [], udata := [7, 8] }).2 = -10 ∧
    (_gnutls_dtls_transmit session2 net2fail).ret = 0 ∧
    (_gnutls_dtls_transmit session2 net2fail).exit = ExitKind.success := by decide

/-! Shape of the emitted fragments when every send succeeds. -/

lemma fragmentLoop_lengths (mtu : Nat) (bufel : Mbuffer) (data : List Nat)
    (sendRes : Nat → Int) (hM : 0 < mtu) (hsends : ∀ i, 0 ≤ sendRes i) :
    ∀ k fuel offset fragIdx ret,
      offset + k * mtu = data.length →
      data.length + 1 - offset ≤ fuel →
      (fragmentLoop mtu bufel data.length data sendRes fuel offset fragIdx ret).1.map
          (fun ev => ev.payload.length) =
        List.replicate k (DTLS_HANDSHAKE_HEADER_SIZE + mtu) ++
          [DTLS_HANDSHAKE_HEADER_SIZE] := by
  intro k
  induction k with
  | zero =>
    intro fuel offset fragIdx ret h1 h2
    have hoff : offset = data.length := by omega
    subst hoff
    obtain ⟨f, rfl⟩ : ∃ f, fuel = f + 1 := ⟨fuel - 1, by omega⟩
    rw [fragmentLoop_step mtu bufel data.length data sendRes f data.length fragIdx ret
      (le_refl _) (not_lt.mpr (hsends fragIdx))]
    rw [fragmentLoop_past mtu bufel data.length data sendRes (data.length + mtu) (by omega) f
      (fragIdx + 1) (sendRes fragIdx)]
    have hc : data.length < data.length + mtu := by omega
    simp [hc, handshakeHeader_length]
  | succ k ihk =>
    intro fuel offset fragIdx ret h1 h2
    have hmul : (k + 1) * mtu = k * mtu + mtu := by ring
    have hoffle : offset + mtu ≤ data.length := by omega
    obtain ⟨f, rfl⟩ : ∃ f, fuel = f + 1 := ⟨fuel - 1, by omega⟩
    rw [fragmentLoop_step mtu bufel data.length data sendRes f offset fragIdx ret
      (by omega) (not_lt.mpr (hsends fragIdx))]
    have hnc : ¬ data.length < offset + mtu := by omega
    have hrec := ihk f (offset + mtu) (fragIdx + 1) (sendRes fragIdx) (by omega) (by omega)
    have hmin : min mtu (data.length - offset) = mtu := by omega
    simp [hrec, hnc, handshakeHeader_length, List.length_take, List.length_drop, hmin,
      List.replicate_succ]

/-- Claim C6: a non change cipher spec message whose length is exactly k
times the MTU (k at least 1) is emitted by transmit_message as exactly k
fragments carrying MTU payload bytes each (12-byte header plus MTU bytes)
followed by one trailing fragment of payload length 0 (header only),
because the loop condition offset at most data_size admits one more
iteration at an exact multiple of the MTU. -/
theorem boundary_fragment_count (k M : Nat) (bufel : Mbuffer) (sendRes : Nat → Int)
    (_hk : 1 ≤ k) (hM : 0 < M)
    (hccs : ¬ bufel.htype = GNUTLS_HANDSHAKE_CHANGE_CIPHER_SPEC)
    (hlen : bufel.udata.length = k * M) (hsends : ∀ i, 0 ≤ sendRes i) :
    (transmit_message true sendRes M bufel).1.length = k + 1 ∧
    (transmit_message true sendRes M bufel).1.map (fun ev => ev.payload.length) =
      List.replicate k (DTLS_HANDSHAKE_HEADER_SIZE + M) ++
        [DTLS_HANDSHAKE_HEADER_SIZE] := by
  have h := fragmentLoop_lengths M bufel bufel.udata sendRes hM hsends k
    (bufel.udata.length + 1) 0 0 0 (by omega) (by omega)
  have h2 : (transmit_message true sendRes M bufel).1.map (fun ev => ev.payload.length) =
      List.replicate k (DTLS_HANDSHAKE_HEADER_SIZE + M) ++ [DTLS_HANDSHAKE_HEADER_SIZE] := by
    simpa [transmit_message, hccs, _mbuffer_get_udata_size, _mbuffer_get_udata_ptr] using h
  refine ⟨?_, h2⟩
  have h3 := congrArg List.length h2
  simpa using h3

def bufel6 : Mbuffer :=
  { htype := 1, sequence := 5, epoch := 0, uhead := [], udata := [1, 2, 3, 4, 5, 6] }

/-- Witness for boundary_fragment_count with k = 2 and MTU 3. -/
theorem boundary_fragment_count_witness :
    bufel6.udata.length = 2 * 3 ∧
    ((transmit_message true (fun _ => 0) 3 bufel6).1.length = 2 + 1 ∧
     (transmit_message true (fun _ => 0) 3 bufel6).1.map (fun ev => ev.payload.length) =
       List.replicate 2 (DTLS_HANDSHAKE_HEADER_SIZE + 3) ++ [DTLS_HANDSHAKE_HEADER_SIZE]) :=
  ⟨by decide, boundary_fragment_count 2 3 bufel6 (fun _ => 0) (by decide) (by decide)
    (by decide) (by decide) (fun i => le_refl 0)⟩

/-! Reassembly of the emitted fragment bodies. -/

lemma fragmentLoop_join (mtu : Nat) (bufel : Mbuffer) (data : List Nat)
    (sendRes : Nat → Int) (hM : 0 < mtu) (hsends : ∀ i, 0 ≤ sendRes i) :
    ∀ fuel offset fragIdx ret,
      offset ≤ data.length →
      data.length + 1 - offset ≤ fuel →
      ((fragmentLoop mtu bufel data.length data sendRes fuel offset fragIdx ret).1.map
        (fun ev => ev.payload.drop DTLS_HANDSHAKE_HEADER_SIZE)).flatten =
        data.drop offset := by
  intro fuel
  induction fuel with
  | zero => intro offset fragIdx ret h1 h2; omega
  | succ f ih =>
    intro offset fragIdx ret h1 h2
    rw [fragmentLoop_step mtu bufel data.length data sendRes f offset fragIdx ret h1
      (not_lt.mpr (hsends fragIdx))]
    by_cases hend : data.length < offset + mtu
    · rw [fragmentLoop_past mtu bufel data.length data sendRes (offset + mtu) (by omega) f
        (fragIdx + 1) (sendRes fragIdx)]
      have hfull : (data.drop offset).take (data.length - offset) = data.drop offset := by
        apply List.take_of_length_le
        simp [List.length_drop]
      simp [hend, handshakeHeader_append_drop, hfull]
    · have hih := ih (offset + mtu) (fragIdx + 1) (sendRes fragIdx) (by omega) (by omega)
      have hdd : data.drop (offset + mtu) = (data.drop offset).drop mtu := by
        rw [List.drop_drop, Nat.add_comm]
      rw [hdd] at hih
      simp [hend, handshakeHeader_append_drop, hih, List.take_append_drop]

lemma fragmentLoop_get (mtu : Nat) (bufel : Mbuffer) (data : List Nat)
    (sendRes : Nat → Int) (hM : 0 < mtu) (hsends : ∀ i, 0 ≤ sendRes i) :
    ∀ fuel offset fragIdx ret,
      offset ≤ data.length →
      data.length + 1 - offset ≤ fuel →
      ∀ j (hj : j <
          (fragmentLoop mtu bufel data.length data sendRes fuel offset fragIdx ret).1.length),
        ((fragmentLoop mtu bufel data.length data sendRes fuel offset fragIdx ret).1.get
            ⟨j, hj⟩).payload.drop DTLS_HANDSHAKE_HEADER_SIZE =
          (data.drop (offset + j * mtu)).take mtu := by
  intro fuel
  induction fuel with
  | zero => intro offset fragIdx ret h1 h2; omega
  | succ f ih =>
    intro offset fragIdx ret h1 h2 j
    rw [fragmentLoop_step mtu bufel data.length data sendRes f offset fragIdx ret h1
      (not_lt.mpr (hsends fragIdx))]
    by_cases hend : data.length < offset + mtu
    · rw [fragmentLoop_past mtu bufel data.length data sendRes (offset + mtu) (by omega) f
        (fragIdx + 1) (sendRes fragIdx)]
      intro hj
      have hj0 : j = 0 := by
        simpa using Nat.lt_one_iff.mp (by simpa using hj)
      subst hj0
      have hfull : (data.drop offset).take (data.length - offset) = data.drop offset := by
        apply List.take_of_length_le
        simp [List.length_drop]
      have hfull2 : (data.drop offset).take mtu = data.drop offset := by
        apply List.take_of_length_le
        simp [List.length_drop]
        omega
      simp [hend, List.get, handshakeHeader_append_drop, hfull, hfull2]
    · intro hj
      cases j with
      | zero =>
        simp [hend, List.get, handshakeHeader_append_drop]
      | succ j =>
        have hj2 : j < (fragmentLoop mtu bufel data.length data sendRes f (offset + mtu)
            (fragIdx + 1) (sendRes fragIdx)).1.length := by
          simpa using hj
        have hih := ih (offset + mtu) (fragIdx + 1) (sendRes fragIdx) (by omega) (by omega)
          j hj2
        have harith : offset + mtu + j * mtu = offset + (j + 1) * mtu := by ring
        rw [harith] at hih
        simpa [List.get] using hih

/-- Claim C7: for every non change cipher spec message payload and every
positive MTU, fragment j emitted by transmit_message carries the payload
bytes starting at offset j times MTU (with length MTU, except the final
fragment which carries the remainder), and concatenating all emitted
fragment bodies in order yields exactly the original payload. -/
theorem fragment_roundtrip (M : Nat) (bufel : Mbuffer) (sendRes : Nat → Int)
    (hM : 0 < M) (hccs : ¬ bufel.htype = GNUTLS_HANDSHAKE_CHANGE_CIPHER_SPEC)
    (hsends : ∀ i, 0 ≤ sendRes i) :
    ((transmit_message true sendRes M bufel).1.map
      (fun ev => ev.payload.drop DTLS_HANDSHAKE_HEADER_SIZE)).flatten = bufel.udata ∧
    ∀ j (hj : j < (transmit_message true sendRes M bufel).1.length),
      ((transmit_message true sendRes M bufel).1.get ⟨j, hj⟩).payload.drop
          DTLS_HANDSHAKE_HEADER_SIZE =
        (bufel.udata.drop (j * M)).take M := by
  have htm : transmit_message true sendRes M bufel =
      fragmentLoop M bufel bufel.udata.length bufel.udata sendRes
        (bufel.udata.length + 1) 0 0 0 := by
    simp [transmit_message, hccs, _mbuffer_get_udata_size, _mbuffer_get_udata_ptr]
  rw [htm]
  constructor
  · have h := fragmentLoop_join M bufel bufel.udata sendRes hM hsends
      (bufel.udata.length + 1) 0 0 0 (by omega) (by omega)
    simpa using h
  · intro j hj
    have h := fragmentLoop_get M bufel bufel.udata sendRes hM hsends
      (bufel.udata.length + 1) 0 0 0 (by omega) (by omega) j hj
    simpa using h

def bufel7 : Mbuffer :=
  { htype := 2, sequence := 0, epoch := 1, uhead := [], udata := [10, 11, 12, 13, 14] }

/-- Witness for fragment_roundtrip with payload length 5 and MTU 2. -/
theorem fragment_roundtrip_witness :
    ¬ bufel7.htype = GNUTLS_HANDSHAKE_CHANGE_CIPHER_SPEC ∧
    (((transmit_message true (fun _ => 0) 2 bufel7).1.map
        (fun ev => ev.payload.drop DTLS_HANDSHAKE_HEADER_SIZE)).flatten = bufel7.udata ∧
     ∀ j (hj : j < (transmit_message true (fun _ => 0) 2 bufel7).1.length),
       ((transmit_message true (fun _ => 0) 2 bufel7).1.get ⟨j, hj⟩).payload.drop
           DTLS_HANDSHAKE_HEADER_SIZE =
         (bufel7.udata.drop (j * 2)).take 2) :=
  ⟨by decide, fragment_roundtrip 2 bufel7 (fun _ => 0) (by decide) (by decide)
    (fun i => le_refl 0)⟩

/-! Lower bounds on the attempt counter and the wait-step case analysis. -/

lemma transmitLoop_attempts_ge (s : Session) (net : NetOracle) :
    ∀ fuel events attempt total lt,
      attempt ≤ (transmitLoop s net fuel events attempt total lt).attempts := by
  intro fuel
  induction fuel with
  | zero => intro events attempt total lt; exact le_refl _
  | succ fuel ih =>
    intro events attempt total lt
    simp only [transmitLoop]
    split
    · exact Nat.le_succ attempt
    · split
      · exact Nat.le_succ attempt
      · split
        · exact le_trans (Nat.le_succ attempt) (ih _ _ _ _)
        · split
          · exact Nat.le_succ attempt
          · exact Nat.le_succ attempt

lemma transmitLoop_attempts_succ (s : Session) (net : NetOracle) :
    ∀ fuel events attempt total lt,
      attempt + 1 ≤ (transmitLoop s net (fuel + 1) events attempt total lt).attempts := by
  intro fuel events attempt total lt
  simp only [transmitLoop]
  split
  · exact le_refl _
  · split
    · exact le_refl _
    · split
      · exact transmitLoop_attempts_ge s net fuel _ _ _ _
      · split
        · exact le_refl _
        · exact le_refl _

lemma waitStep_bytes (s : Session) (net : NetOracle) (attempt lt : Nat) :
    (waitStep s net attempt lt).bytesRequested =
      if sendsLastFlight s lt then 1 else 0 := by
  by_cases h : sendsLastFlight s lt
  · simp only [waitStep, h, if_true]
    split
    · rfl
    · split
      · split
        · rfl
        · rfl
      · rfl
  · simp [waitStep, h]

lemma sendsLastFlight_iff (s : Session) (lt : Nat) :
    sendsLastFlight s lt = true ↔
      (lt = GNUTLS_HANDSHAKE_FINISHED ∧
        ((s.entity = ConnectionEnd.GNUTLS_SERVER ∧ s.resumed = false) ∨
         (s.entity = ConnectionEnd.GNUTLS_CLIENT ∧ s.resumed = true))) := by
  simp [sendsLastFlight, Bool.and_eq_true, Bool.or_eq_true, decide_eq_true_eq]

lemma waitStep_finished_timeout (s : Session) (net : NetOracle) (attempt lt : Nat)
    (h : sendsLastFlight s lt = true) (hr : net.recvRes attempt = GNUTLS_E_TIMEDOUT) :
    (waitStep s net attempt lt).waitRet = 0 := by
  simp [waitStep, h, hr]

lemma waitStep_finished_handshake_byte (s : Session) (net : NetOracle) (attempt lt : Nat)
    (h : sendsLastFlight s lt = true) (hr : 0 ≤ net.recvRes attempt)
    (hb : net.recvByte attempt = GNUTLS_HANDSHAKE) :
    (waitStep s net attempt lt).waitRet = GNUTLS_E_TIMEDOUT := by
  have hne : ¬ net.recvRes attempt = GNUTLS_E_TIMEDOUT := by
    intro he
    rw [he] at hr
    norm_num [GNUTLS_E_TIMEDOUT] at hr
  simp [waitStep, h, hne, hr, hb]

lemma transmit_first_success (s : Session) (net : NetOracle)
    (hflush : ¬ net.flushRes 0 < 0)
    (hroom : ¬ s.total_timeout ≤ s.retrans_timeout)
    (hw : 0 ≤ (waitStep s net 0 (flightLastType s.send_buffer 0)).waitRet) :
    (_gnutls_dtls_transmit s net).ret = 0 ∧
    (_gnutls_dtls_transmit s net).attempts = 1 ∧
    (_gnutls_dtls_transmit s net).totalWaited = s.retrans_timeout ∧
    (_gnutls_dtls_transmit s net).exit = ExitKind.success := by
  have hw2 := hw
  rw [← sendFlight_snd s net 0 s.send_buffer 0 0] at hw2
  have hne : ¬ (waitStep s net 0 (sendFlight s net 0 s.send_buffer 0 0).2).waitRet =
      GNUTLS_E_TIMEDOUT := by
    intro he
    rw [he] at hw2
    norm_num [GNUTLS_E_TIMEDOUT] at hw2
  have hnl : ¬ (waitStep s net 0 (sendFlight s net 0 s.send_buffer 0 0).2).waitRet < 0 :=
    not_lt.mpr hw2
  have hroom2 : ¬ s.total_timeout ≤ 0 + s.retrans_timeout := by omega
  simp only [_gnutls_dtls_transmit, transmitLoop]
  simp [hflush, hroom, hroom2, hne, hnl, finishWithCleanup]

lemma transmit_first_retransmit (s : Session) (net : NetOracle)
    (hflush : ¬ net.flushRes 0 < 0)
    (hroom : ¬ s.total_timeout ≤ s.retrans_timeout)
    (hw : (waitStep s net 0 (flightLastType s.send_buffer 0)).waitRet =
      GNUTLS_E_TIMEDOUT) :
    2 ≤ (_gnutls_dtls_transmit s net).attempts := by
  have hw2 := hw
  rw [← sendFlight_snd s net 0 s.send_buffer 0 0] at hw2
  have hroom2 : ¬ s.total_timeout ≤ 0 + s.retrans_timeout := by omega
  simp only [_gnutls_dtls_transmit, transmitLoop]
  simp only [hflush, if_false, hroom2, hw2, if_true]
  obtain ⟨f, hf⟩ : ∃ f, s.total_timeout = f + 1 := ⟨s.total_timeout - 1, by omega⟩
  rw [hf]
  exact transmitLoop_attempts_succ s net f _ _ _ _

/-- Claim C5: the one-byte wait after flushing is performed exactly when
the last message sent was the Finished message and this side sends the
final flight of the handshake (server on a non-resumed handshake, or
client on a resumed handshake); in that wait a timeout is treated as
success (waitRet 0, and the round reports success when the deadline has
room), while a received byte equal to the handshake record type turns
the wait outcome into GNUTLS_E_TIMEDOUT and forces a retransmission of
the flight on that round. -/
theorem finished_wait_semantics (s : Session) (net : NetOracle) (k lt : Nat) :
    ((waitStep s net k lt).bytesRequested = 1 ↔
      (lt = GNUTLS_HANDSHAKE_FINISHED ∧
        ((s.entity = ConnectionEnd.GNUTLS_SERVER ∧ s.resumed = false) ∨
         (s.entity = ConnectionEnd.GNUTLS_CLIENT ∧ s.resumed = true)))) ∧
    (sendsLastFlight s lt = true → net.recvRes k = GNUTLS_E_TIMEDOUT →
      (waitStep s net k lt).waitRet = 0) ∧
    (sendsLastFlight s lt = true → 0 ≤ net.recvRes k →
      net.recvByte k = GNUTLS_HANDSHAKE →
      (waitStep s net k lt).waitRet = GNUTLS_E_TIMEDOUT) ∧
    (¬ net.flushRes 0 < 0 → ¬ s.total_timeout ≤ s.retrans_timeout →
      sendsLastFlight s (flightLastType s.send_buffer 0) = true →
      net.recvRes 0 = GNUTLS_E_TIMEDOUT →
      (_gnutls_dtls_transmit s net).ret = 0 ∧
      (_gnutls_dtls_transmit s net).attempts = 1) ∧
    (¬ net.flushRes 0 < 0 → ¬ s.total_timeout ≤ s.retrans_timeout →
      sendsLastFlight s (flightLastType s.send_buffer 0) = true →
      0 ≤ net.recvRes 0 → net.recvByte 0 = GNUTLS_HANDSHAKE →
      2 ≤ (_gnutls_dtls_transmit s net).attempts) := by
  refine ⟨?_, waitStep_finished_timeout s net k lt,
    waitStep_finished_handshake_byte s net k lt, ?_, ?_⟩
  · rw [waitStep_bytes, ← sendsLastFlight_iff]
    by_cases h : sendsLastFlight s lt <;> simp [h]
  · intro hf hr hsl hrecv
    have hw : 0 ≤ (waitStep s net 0 (flightLastType s.send_buffer 0)).waitRet := by
      rw [waitStep_finished_timeout s net 0 _ hsl hrecv]
    obtain ⟨h1, h2, _, _⟩ := transmit_first_success s net hf hr hw
    exact ⟨h1, h2⟩
  · intro hf hr hsl hrecv hbyte
    exact transmit_first_retransmit s net hf hr
      (waitStep_finished_handshake_byte s net 0 _ hsl hrecv hbyte)

def session5 : Session :=
  { send_buffer := [{ htype := 20, sequence := 1, epoch := 1, uhead := [], udata := [1] }],
    hsk_mtu := 4, retrans_timeout := 2, total_timeout := 10,
    entity := ConnectionEnd.GNUTLS_SERVER, resumed := false,
    epochs := { present := fun _ => true, usage := fun _ => 1 } }

def net5timeout : NetOracle :=
  { sendRes := fun _ _ _ => 0, allocOk := fun _ _ => true, flushRes := fun _ => 0,
    recvRes := fun _ => GNUTLS_E_TIMEDOUT, recvByte := fun _ => 0 }

def net5hs : NetOracle :=
  { sendRes := fun _ _ _ => 0, allocOk := fun _ _ => true, flushRes := fun _ => 0,
    recvRes := fun _ => 1, recvByte := fun _ => 22 }

/-- Witness for finished_wait_semantics: a server-side non-resumed session
whose last buffered message is Finished waits for one byte; a timed-out
wait yields success in one attempt, and a received handshake byte forces
at least a second attempt. -/
theorem finished_wait_semantics_witness :
    (waitStep session5 net5timeout 0 20).bytesRequested = 1 ∧
    (waitStep session5 net5timeout 0 20).waitRet = 0 ∧
    (_gnutls_dtls_transmit session5 net5timeout).ret = 0 ∧
    (_gnutls_dtls_transmit session5 net5timeout).attempts = 1 ∧
    2 ≤ (_gnutls_dtls_transmit session5 net5hs).attempts := by
  obtain ⟨h1, h2, _, h4, _⟩ := finished_wait_semantics session5 net5timeout 0 20
  obtain ⟨_, _, _, _, g5⟩ := finished_wait_semantics session5 net5hs 0 20
  refine ⟨h1.mpr (by decide), h2 (by decide) rfl, ?_, ?_, ?_⟩
  · exact (h4 (by decide) (by decide) (by decide) rfl).1
  · exact (h4 (by decide) (by decide) (by decide) rfl).2
  · exact g5 (by decide) (by decide) (by decide) (by decide) (by decide)

/-- Claim C8 (amended): provided the retransmission interval is strictly
less than the total deadline (otherwise the deadline check aborts even an
acknowledged first attempt with GNUTLS_E_TIMEDOUT), if the flush succeeds
and the very first bounded wait yields a qualifying outcome (nonnegative
wait result: an implicit acknowledgment, or in the Finished special case a
response that is not a retransmission request), then exactly one
full-flight transmission attempt occurs and _gnutls_dtls_transmit reports
success with accumulated wait exactly R, in particular at most R. -/
theorem immediate_success (s : Session) (net : NetOracle)
    (hflush : 0 ≤ net.flushRes 0)
    (hroom : s.retrans_timeout < s.total_timeout)
    (hw : 0 ≤ (waitStep s net 0 (flightLastType s.send_buffer 0)).waitRet) :
    (_gnutls_dtls_transmit s net).ret = 0 ∧
    (_gnutls_dtls_transmit s net).attempts = 1 ∧
    (_gnutls_dtls_transmit s net).totalWaited = s.retrans_timeout ∧
    (_gnutls_dtls_transmit s net).totalWaited ≤ s.retrans_timeout := by
  obtain ⟨h1, h2, h3, _⟩ := transmit_first_success s net (not_lt.mpr hflush)
    (by omega) hw
  exact ⟨h1, h2, h3, le_of_eq h3⟩

def session8 : Session :=
  { send_buffer := [{ htype := 1, sequence := 0, epoch := 2, uhead := [], udata := [5] }],
    hsk_mtu := 4, retrans_timeout := 2, total_timeout := 9,
    entity := ConnectionEnd.GNUTLS_CLIENT, resumed := false,
    epochs := { present := fun _ => true, usage := fun _ => 1 } }

def net8 : NetOracle :=
  { sendRes := fun _ _ _ => 0, allocOk := fun _ _ => true, flushRes := fun _ => 0,
    recvRes := fun _ => 3, recvByte := fun _ => 0 }

/-- Witness for immediate_success: first wait yields data, one attempt. -/
theorem immediate_success_witness :
    0 ≤ net8.flushRes 0 ∧
    session8.retrans_timeout < session8.total_timeout ∧
    0 ≤ (waitStep session8 net8 0 (flightLastType session8.send_buffer 0)).waitRet ∧
    ((_gnutls_dtls_transmit session8 net8).ret = 0 ∧
     (_gnutls_dtls_transmit session8 net8).attempts = 1 ∧
     (_gnutls_dtls_transmit session8 net8).totalWaited = session8.retrans_timeout ∧
     (_gnutls_dtls_transmit session8 net8).totalWaited ≤ session8.retrans_timeout) :=
  ⟨by decide, by decide, by decide,
    immediate_success session8 net8 (by decide) (by decide) (by decide)⟩

def session8tight : Session :=
  { send_buffer := [{ htype := 1, sequence := 0, epoch := 2, uhead := [], udata := [5] }],
    hsk_mtu := 4, retrans_timeout := 5, total_timeout := 5,
    entity := ConnectionEnd.GNUTLS_CLIENT, resumed := false,
    epochs := { present := fun _ => true, usage := fun _ => 1 } }

/-- Claim C8 counterexample: with retransmission interval 5 equal to the
total timeout 5, the very first bounded wait yields a qualifying response
(receive result 3, implicit-acknowledgment branch) and exactly one attempt
occurs, yet _gnutls_dtls_transmit reports GNUTLS_E_TIMEDOUT rather than
success, because the accumulated wait counter reached the deadline. -/
theorem first_response_deadline_abort :
    0 ≤ net8.recvRes 0 ∧
    (waitStep session8tight net8 0
      (flightLastType session8tight.send_buffer 0)).bytesRequested = 0 ∧
    0 ≤ (waitStep session8tight net8 0
      (flightLastType session8tight.send_buffer 0)).waitRet ∧
    (_gnutls_dtls_transmit session8tight net8).attempts = 1 ∧
    (_gnutls_dtls_transmit session8tight net8).ret = GNUTLS_E_TIMEDOUT := by decide

/-- Claim C10: with an empty flight buffer, _gnutls_dtls_transmit performs
no per-message transport writes but still consults the transport flush (a
negative flush result becomes its return value) and enters the bounded
wait in the implicit-acknowledgment branch, because last_type keeps its
initial value 0, which differs from the Finished type 20; with a
succeeding flush and a responding peer the function returns success 0
without having sent any message. -/
theorem empty_flight_behavior (s : Session) (net : NetOracle)
    (hbuf : s.send_buffer = [])
    (hroom : s.retrans_timeout < s.total_timeout) :
    (waitStep s net 0 (flightLastType s.send_buffer 0)).bytesRequested = 0 ∧
    (net.flushRes 0 < 0 →
      (_gnutls_dtls_transmit s net).ret = net.flushRes 0 ∧
      (_gnutls_dtls_transmit s net).events = []) ∧
    (0 ≤ net.flushRes 0 → 0 ≤ net.recvRes 0 →
      (_gnutls_dtls_transmit s net).ret = 0 ∧
      (_gnutls_dtls_transmit s net).attempts = 1 ∧
      (_gnutls_dtls_transmit s net).events = []) := by
  have hlt : flightLastType s.send_buffer 0 = 0 := by rw [hbuf]; rfl
  have hsl : sendsLastFlight s 0 = false := by
    simp [sendsLastFlight, GNUTLS_HANDSHAKE_FINISHED]
  have hsf : sendFlight s net 0 s.send_buffer 0 0 = ([], 0) := by rw [hbuf]; rfl
  refine ⟨?_, ?_, ?_⟩
  · rw [hlt, waitStep_bytes, hsl]
    simp
  · intro hfe
    simp only [_gnutls_dtls_transmit, transmitLoop, hsf]
    simp [hfe]
  · intro hf hr
    have hne2 : ¬ net.recvRes 0 = GNUTLS_E_TIMEDOUT := by
      intro he
      rw [he] at hr
      norm_num [GNUTLS_E_TIMEDOUT] at hr
    have hnl2 : ¬ net.recvRes 0 < 0 := not_lt.mpr hr
    have hf2 : ¬ net.flushRes 0 < 0 := not_lt.mpr hf
    have hroom2 : ¬ s.total_timeout ≤ 0 + s.retrans_timeout := by omega
    have hroom3 : ¬ s.total_timeout ≤ s.retrans_timeout := by omega
    simp only [_gnutls_dtls_transmit, transmitLoop, hsf]
    simp [hf2, hroom2, hroom3, waitStep_generic s net 0 0 hsl, hne2, hnl2,
      finishWithCleanup]

def session10 : Session :=
  { send_buffer := [], hsk_mtu := 4, retrans_timeout := 2, total_timeout := 9,
    entity := ConnectionEnd.GNUTLS_SERVER, resumed := false,
    epochs := { present := fun _ => true, usage := fun _ => 0 } }

def net10 : NetOracle :=
  { sendRes := fun _ _ _ => 0, allocOk := fun _ _ => true, flushRes := fun _ => 0,
    recvRes := fun _ => 0, recvByte := fun _ => 0 }

/-- Witness for empty_flight_behavior on a concrete empty flight. -/
theorem empty_flight_behavior_witness :
    session10.send_buffer = [] ∧
    session10.retrans_timeout < session10.total_timeout ∧
    ((waitStep session10 net10 0 (flightLastType session10.send_buffer 0)).bytesRequested
        = 0 ∧
     (net10.flushRes 0 < 0 →
       (_gnutls_dtls_transmit session10 net10).ret = net10.flushRes 0 ∧
       (_gnutls_dtls_transmit session10 net10).events = []) ∧
     (0 ≤ net10.flushRes 0 → 0 ≤ net10.recvRes 0 →
       (_gnutls_dtls_transmit session10 net10).ret = 0 ∧
       (_gnutls_dtls_transmit session10 net10).attempts = 1 ∧
       (_gnutls_dtls_transmit session10 net10).events = [])) :=
  ⟨rfl, by decide, empty_flight_behavior session10 net10 rfl (by decide)⟩
